import Mathlib

/-!
Shallow embedding of the core of the multi-party-sig threshold-ECDSA
library: the Paillier secret-key operations (pkg/paillier/secret.go),
rounds 4 and output of the key-generation protocol
(protocols/cmp/keygen/round4.go and round_output.go) and the signing
setup (protocols/cmp/sign/sign.go).

Modelling conventions.

Big naturals of the external safenum library are modelled as Nat; its
operations (Sub, Div, ModMul, Exp, SetModSymmetric, ModInverse, TrueLen)
are modelled by their mathematical contracts on the reachable domain.
The CRT-accelerated exponentiation modulus.Exp is modelled as plain
modular exponentiation, which it equals by the Chinese remainder theorem.

The prime-order group of the signing curve is external to the code under
study ("treated as an external collaborator exposing a fixed contract").
It is modelled canonically: scalars and points of the group of prime
order q are both ZMod q, the base point G is 1, ScalarBaseMult is the
identity map, ScalarMult is multiplication and point addition is
addition.  Party identifiers are an arbitrary type with decidable
equality; Go maps keyed by party id are modelled as total functions.

Zero-knowledge proof verifiers (zkmod, zkprm, zksch), the Lagrange
coefficient computation and the config validation predicates live
outside the source excerpt; they enter the embedding as explicit
function or Boolean parameters of the definitions that call them, so
that every theorem quantifies over their behaviour.
-/

namespace MPS

/-! ## Paillier secret key (pkg/paillier/secret.go) -/

/-- The error kind of Paillier decryption: the single error return of
SecretKey.Dec, raised on an invalid ciphertext. -/
inductive DecError where
  | invalidCiphertext
deriving DecidableEq

/-- Modelled from the spec: ciphertext validity for a Paillier public
key with modulus N (the source's PublicKey.ValidateCiphertexts lies
outside the excerpt).  "A ciphertext is valid iff it lies in
[1, N^2 - 1] and is coprime to N^2." -/
def validateCiphertext (N c : Nat) : Bool :=
  decide (1 ≤ c) && decide (c ≤ N ^ 2 - 1) && decide (Nat.gcd c (N ^ 2) = 1)

/-- safenum Nat.ModInverse, modelled extensionally: the multiplicative
inverse of a modulo n, i.e. the unique b in [0, n) with a * b % n = 1
when a is invertible (found here by search; 0 when none exists). -/
def modInverse (a n : Nat) : Nat :=
  (((List.range n).find? fun b => a * b % n == 1).getD 0)

/-- safenum Int.SetModSymmetric: the representative of x mod N centered
around 0.  It keeps x mod N when that is at most its negation mod N and
otherwise uses the negation with a negative sign (the sign is dropped
when x mod N is zero). -/
def setModSymmetric (x N : Nat) : Int :=
  let xm := x % N
  let neg := (N - xm) % N
  if neg ≤ xm ∧ xm ≠ 0 then -(neg : Int) else (xm : Int)

/-- SecretKey.Dec (pkg/paillier/secret.go, lines 97-118): validate the
ciphertext, compute c^phi mod N^2 (the source uses the CRT form of N^2;
mathematically the same value), subtract one, divide by N, multiply by
phi^-1 mod N, and return the symmetric representative.  phi^-1 is
precomputed by NewSecretKeyFromPrimes as ModInverse(phi, N); it is
inlined here. -/
def decPaillier (p q c : Nat) : Except DecError Int :=
  let n := p * q
  if validateCiphertext n c then
    let phi := (p - 1) * (q - 1)
    let phiInv := modInverse phi n
    let r1 := c ^ phi % n ^ 2
    let r2 := r1 - 1
    let r3 := r2 / n
    let r4 := r3 * phiInv % n
    .ok (setModSymmetric r4 n)
  else
    .error DecError.invalidCiphertext

/-! ## ValidatePrime (pkg/paillier/secret.go, lines 127-152) -/

/-- The error kinds of ValidatePrime (ErrPrimeBadLength, ErrNotBlum,
ErrNotSafePrime of pkg/paillier/secret.go, lines 16-20). -/
inductive PrimeError where
  | primeBadLength
  | notBlum
  | notSafePrime
deriving DecidableEq

/-- Modelled from the spec: params.BitsBlumPrime (internal/params lies
outside the excerpt); the spec fixes it to 1024. -/
def bitsBlumPrime : Nat := 1024

/-- The number of Miller-Rabin rounds the source passes to
big.Int.ProbablyPrime inside ValidatePrime (pkg/paillier/secret.go,
line 148: ProbablyPrime(1)). -/
def probablyPrimeReps : Nat := 1

/-- Fuel-driven bit count: the number of binary digits of n. -/
def trueLenAux : Nat → Nat → Nat
  | 0, _ => 0
  | fuel + 1, n => if n = 0 then 0 else trueLenAux fuel (n / 2) + 1

/-- safenum Nat.TrueLen: the exact bit length of n (0 for n = 0). -/
def trueLen (n : Nat) : Nat := trueLenAux n n

/-- ValidatePrime (pkg/paillier/secret.go): checks, in order, that the
bit length is exactly BitsBlumPrime, that the low byte masked with 0b11
equals 3 (p = 3 mod 4), and that p >> 1 passes the probabilistic
primality test with probablyPrimeReps rounds.  The test itself
(big.Int.ProbablyPrime) is external; it is passed in as the function
argument probablyPrime (first argument: number of Miller-Rabin rounds,
second: the candidate). -/
def validatePrime (probablyPrime : Nat → Nat → Bool) (p : Nat) :
    Except PrimeError Unit :=
  if trueLen p ≠ bitsBlumPrime then .error PrimeError.primeBadLength
  else if (p % 256) &&& 3 ≠ 3 then .error PrimeError.notBlum
  else if !(probablyPrime probablyPrimeReps (p >>> 1)) then .error PrimeError.notSafePrime
  else .ok ()

/-! ## Helper lemmas -/

set_option maxRecDepth 4096 in
theorem land_three_eq_mod (p : Nat) : (p % 256) &&& 3 = p % 4 := by
  have hsmall : ∀ x < 256, x &&& 3 = x % 4 := by decide
  have h1 : (p % 256) &&& 3 = p % 256 % 4 := hsmall _ (Nat.mod_lt _ (by norm_num))
  have h2 : p % 256 % 4 = p % 4 := Nat.mod_mod_of_dvd p (by norm_num)
  omega

theorem setModSymmetric_natAbs_le (x N : Nat) (hN : 0 < N) (hodd : N % 2 = 1) :
    2 * (setModSymmetric x N).natAbs ≤ N - 1 := by
  have hxm : x % N < N := Nat.mod_lt _ hN
  show 2 * (if (N - x % N) % N ≤ x % N ∧ x % N ≠ 0
      then -(((N - x % N) % N : Nat) : Int) else ((x % N : Nat) : Int)).natAbs ≤ N - 1
  by_cases hz : x % N = 0
  · simp [hz]
  · have hneg : (N - x % N) % N = N - x % N := Nat.mod_eq_of_lt (by omega)
    rw [hneg]
    split_ifs with h
    · rw [Int.natAbs_neg, Int.natAbs_ofNat]
      omega
    · rw [Int.natAbs_ofNat]
      have hA : ¬(N - x % N ≤ x % N) := fun hA => h ⟨hA, hz⟩
      omega

/-! ## Theorems for the Paillier claims -/

/-- C1 (amended): for every Paillier secret key built from odd primes p
and q and every valid ciphertext c, Dec succeeds and returns
((c^phi - 1) / N) * phi^-1 mod N mapped to the symmetric range, and the
returned value lies in the range +-(N-1)/2 (the claimed bound
+-(N-2)/2 is off by one at the extreme; see the counterexample). -/
theorem paillier_dec_valid (p q c : Nat) (hp : Nat.Prime p) (hq : Nat.Prime q)
    (hpo : p % 2 = 1) (hqo : q % 2 = 1)
    (hv : validateCiphertext (p * q) c = true) :
    decPaillier p q c =
      .ok (setModSymmetric
            ((c ^ ((p - 1) * (q - 1)) % (p * q) ^ 2 - 1) / (p * q) *
              modInverse ((p - 1) * (q - 1)) (p * q) % (p * q)) (p * q))
    ∧ 2 * (setModSymmetric
            ((c ^ ((p - 1) * (q - 1)) % (p * q) ^ 2 - 1) / (p * q) *
              modInverse ((p - 1) * (q - 1)) (p * q) % (p * q)) (p * q)).natAbs
        ≤ p * q - 1 := by
  constructor
  · simp [decPaillier, hv]
  · apply setModSymmetric_natAbs_le
    · exact Nat.mul_pos hp.pos hq.pos
    · rw [Nat.mul_mod, hpo, hqo]

/-- C1 counterexample: the ciphertext 106 is valid for the key (3, 5)
with N = 15, and Dec returns 7, whose absolute value exceeds the claimed
bound (N - 2) / 2 (2 * 7 = 14 > 13 = N - 2). -/
theorem paillier_dec_range_counterexample :
    decPaillier 3 5 106 = .ok 7 ∧ validateCiphertext 15 106 = true ∧
      Nat.Prime 3 ∧ Nat.Prime 5 ∧ ¬(2 * (7 : Int).natAbs ≤ 15 - 2) :=
  ⟨rfl, rfl, by norm_num, by norm_num, by decide⟩

/-- Witness for C1 at p = 3, q = 5, c = 1. -/
theorem paillier_dec_valid_witness :
    Nat.Prime 3 ∧ Nat.Prime 5 ∧ 3 % 2 = 1 ∧ 5 % 2 = 1 ∧
      validateCiphertext (3 * 5) 1 = true ∧
      decPaillier 3 5 1 =
        .ok (setModSymmetric
              ((1 ^ ((3 - 1) * (5 - 1)) % (3 * 5) ^ 2 - 1) / (3 * 5) *
                modInverse ((3 - 1) * (5 - 1)) (3 * 5) % (3 * 5)) (3 * 5)) :=
  ⟨by norm_num, by norm_num, by decide, by decide, by decide,
    (paillier_dec_valid 3 5 1 (by norm_num) (by norm_num) (by decide) (by decide)
      (by decide)).1⟩

theorem decPaillier_eq_error (p q c : Nat) :
    decPaillier p q c = .error DecError.invalidCiphertext ↔
      validateCiphertext (p * q) c = false := by
  unfold decPaillier
  cases hvc : validateCiphertext (p * q) c <;> simp [hvc]

/-- C2: Dec returns an error exactly when the ciphertext is not in
[1, N^2 - 1] or not coprime to N^2, and the error is the
InvalidCiphertext kind; in particular Dec of 0 and of N^2 both fail
that way. -/
theorem paillier_dec_error_char (p q c : Nat) :
    (decPaillier p q c = .error DecError.invalidCiphertext ↔
      ¬(1 ≤ c ∧ c ≤ (p * q) ^ 2 - 1 ∧ Nat.gcd c ((p * q) ^ 2) = 1)) ∧
    decPaillier p q 0 = .error DecError.invalidCiphertext ∧
    decPaillier p q ((p * q) ^ 2) = .error DecError.invalidCiphertext := by
  have hiff : ∀ c', validateCiphertext (p * q) c' = true ↔
      (1 ≤ c' ∧ c' ≤ (p * q) ^ 2 - 1 ∧ Nat.gcd c' ((p * q) ^ 2) = 1) := by
    intro c'
    simp [validateCiphertext, and_assoc]
  have hfalse : ∀ c', validateCiphertext (p * q) c' = false ↔
      ¬(1 ≤ c' ∧ c' ≤ (p * q) ^ 2 - 1 ∧ Nat.gcd c' ((p * q) ^ 2) = 1) := by
    intro c'
    rw [← Bool.not_eq_true]
    exact not_congr (hiff c')
  refine ⟨(decPaillier_eq_error p q c).trans (hfalse c), ?_, ?_⟩
  · exact (decPaillier_eq_error p q 0).mpr ((hfalse 0).mpr (fun h => by omega))
  · exact (decPaillier_eq_error p q ((p * q) ^ 2)).mpr
      ((hfalse ((p * q) ^ 2)).mpr (fun h => by omega))

/-- C3: ValidatePrime returns ok iff the bit length of p is exactly
BitsBlumPrime = 1024, p = 3 mod 4, and (p - 1) / 2 passes the
probabilistic primality test; each failing check returns its error kind
(bad length, then not Blum, then not safe prime), in that order. -/
theorem validatePrime_char (probablyPrime : Nat → Nat → Bool) (p : Nat) :
    bitsBlumPrime = 1024 ∧
    (validatePrime probablyPrime p = .ok () ↔
      trueLen p = 1024 ∧ p % 4 = 3 ∧
        probablyPrime probablyPrimeReps ((p - 1) / 2) = true) ∧
    (validatePrime probablyPrime p = .error PrimeError.primeBadLength ↔
      trueLen p ≠ 1024) ∧
    (validatePrime probablyPrime p = .error PrimeError.notBlum ↔
      trueLen p = 1024 ∧ p % 4 ≠ 3) ∧
    (validatePrime probablyPrime p = .error PrimeError.notSafePrime ↔
      trueLen p = 1024 ∧ p % 4 = 3 ∧
        probablyPrime probablyPrimeReps ((p - 1) / 2) = false) := by
  have hshift : p >>> 1 = p / 2 := Nat.shiftRight_one p
  unfold validatePrime
  rw [land_three_eq_mod p, hshift]
  by_cases h1 : trueLen p = 1024
  · by_cases h2 : p % 4 = 3
    · have hdiv : (p - 1) / 2 = p / 2 := by omega
      rw [hdiv]
      cases h3 : probablyPrime probablyPrimeReps (p / 2) <;>
        simp [bitsBlumPrime, h1, h2, h3]
    · simp [bitsBlumPrime, h1, h2]
  · simp [bitsBlumPrime, h1]

/-- C4 counterexample: the source passes 1, not at least 40, as the
Miller-Rabin round count of the probabilistic primality test
(pkg/paillier/secret.go line 148: ProbablyPrime(1)). -/
theorem probablyPrimeReps_counterexample :
    probablyPrimeReps = 1 ∧ ¬(40 ≤ probablyPrimeReps) := by decide

/-- C4 (amended): ValidatePrime consults the probabilistic primality
test only with probablyPrimeReps = 1 Miller-Rabin rounds: two tests that
agree at round count probablyPrimeReps make ValidatePrime agree
everywhere. -/
theorem validatePrime_reps (pp pp' : Nat → Nat → Bool) (p : Nat)
    (h : ∀ x, pp probablyPrimeReps x = pp' probablyPrimeReps x) :
    probablyPrimeReps = 1 ∧ validatePrime pp p = validatePrime pp' p := by
  refine ⟨rfl, ?_⟩
  unfold validatePrime
  rw [h]

/-- Witness for C4 (amended). -/
theorem validatePrime_reps_witness :
    probablyPrimeReps = 1 ∧
      validatePrime (fun _ _ => true) 7 = validatePrime (fun _ _ => true) 7 :=
  validatePrime_reps (fun _ _ => true) (fun _ _ => true) 7 (fun _ => rfl)

/-! ## Keygen round 4 (protocols/cmp/keygen/round4.go)

Scalars and points are both ZMod q (canonical model of the prime-order
curve group, base point 1); party ids are an arbitrary type ID with
decidable equality.  The zkmod and zkprm proof blobs carried by the
Keygen4 message are arbitrary types; the external verifiers
zkmod.Verify and zkprm.Verify enter as function parameters receiving
the proof together with the public parameters the source passes them
(zkmod.Public{N} and zkprm.Public{N, S, T}). -/

/-- The message content Keygen4 (protocols/cmp/keygen/round4.go): a mod
proof, a prm proof, and the Paillier-encrypted share; its Validate
checks exactly these three fields, and it carries no logstar proof. -/
structure Keygen4 (Mod Prm : Type) where
  mod : Mod
  prm : Prm
  share : Nat

/-- The error values of keygen rounds 4 and output, together with the
Paillier decryption error that round4.StoreMessage passes through. -/
inductive KeygenError where
  | round4ZKMod
  | round4ZKPrm
  | round4ZKLogStar
  | round4Decrypt
  | round4VSS
  | decFailed (e : DecError)
  | polySumFailed
  | roundOutputZKSch
deriving DecidableEq

/-- The state of keygen round 4 (fields of round4 and the embedded
earlier rounds that rounds 4 and output read): the committee, our id,
the threshold, the agreed RID and chain key, the per-party Pedersen and
Paillier public material, the exponent-form VSS polynomials (coefficient
lists of group elements), the shares received so far, the previous
secret/public ECDSA data (zero when not refreshing), the per-party
Schnorr commitments, and our Paillier factors. -/
structure Round4State (ID : Type) (q : Nat) where
  partyIDs : List ID
  selfID : ID
  threshold : Nat
  rid : List Nat
  chainKey : List Nat
  pedersenN : ID → Nat
  pedersenS : ID → Nat
  pedersenT : ID → Nat
  vssPolynomials : ID → List (ZMod q)
  shareReceived : ID → Option (ZMod q)
  previousSecretECDSA : ZMod q
  previousPublicSharesECDSA : ID → ZMod q
  schnorrCommitments : ID → ZMod q
  paillierP : Nat
  paillierQ : Nat

/-- round4.VerifyMessage (protocols/cmp/keygen/round4.go, lines 29-46):
verify the zkmod proof against N of the sender, then the zkprm proof
against (N, S, T) of the sender; nothing else is verified. -/
def round4VerifyMessage {ID : Type} {q : Nat} {Mod Prm : Type}
    (modVerify : Mod → Nat → Bool) (prmVerify : Prm → Nat → Nat → Nat → Bool)
    (st : Round4State ID q) (sender : ID) (body : Keygen4 Mod Prm) :
    Except KeygenError Unit :=
  if !(modVerify body.mod (st.pedersenN sender)) then .error KeygenError.round4ZKMod
  else if !(prmVerify body.prm (st.pedersenN sender) (st.pedersenS sender)
      (st.pedersenT sender)) then .error KeygenError.round4ZKPrm
  else .ok ()

/-- Modelled from the spec: round 4 message verification as the spec
states it, for comparison with round4VerifyMessage.  "For each sender j,
verify mod, prm, logstar"; each argument is the outcome of the
corresponding proof verification. -/
def round4VerifyMessageSpec (modOk prmOk logstarOk : Bool) :
    Except KeygenError Unit :=
  if !modOk then .error KeygenError.round4ZKMod
  else if !prmOk then .error KeygenError.round4ZKPrm
  else if !logstarOk then .error KeygenError.round4ZKLogStar
  else .ok ()

/-- Modelled from the spec: the round engine pairs each error returned
by VerifyMessage or StoreMessage with the id of the sending party as the
culprit ("every proof verification that fails names the sender as a
culprit and aborts the session"). -/
def attributeError {ID α : Type} (sender : ID) :
    Except KeygenError α → Except (ID × KeygenError) α
  | .error e => .error (sender, e)
  | .ok a => .ok a

/-- Modelled from the spec: polynomial.Exponent.Evaluate (the
polynomial package lies outside the excerpt).  "VSSPolynomial (exponent
form). Coefficients in the group: F(X) = sum of a_i * X^i * G";
evaluation by the Horner scheme over the canonical group. -/
def evalExponent {q : Nat} (coeffs : List (ZMod q)) (x : ZMod q) : ZMod q :=
  coeffs.foldr (fun a acc => a + x * acc) 0

/-- round4.StoreMessage (protocols/cmp/keygen/round4.go, lines 54-76):
decrypt the share with our Paillier key (passing a decryption error
through), reject if reducing the decrypted integer into the scalar field
changed its value, reject if the VSS check share * G = F_sender(self)
fails, and only then record the share for the sender.  idScalar is the
external party.ID.Scalar mapping. -/
def round4StoreMessage {ID : Type} [DecidableEq ID] {q : Nat} {Mod Prm : Type}
    (idScalar : ID → ZMod q) (st : Round4State ID q) (sender : ID)
    (body : Keygen4 Mod Prm) : Except KeygenError (Round4State ID q) :=
  match decPaillier st.paillierP st.paillierQ body.share with
  | .error e => .error (KeygenError.decFailed e)
  | .ok decryptedShare =>
    let share : ZMod q := (decryptedShare : ZMod q)
    if decryptedShare ≠ (share.val : Int) then .error KeygenError.round4Decrypt
    else
      let expectedPublicShare := evalExponent (st.vssPolynomials sender) (idScalar st.selfID)
      let publicShare := share
      if publicShare ≠ expectedPublicShare then .error KeygenError.round4VSS
      else .ok { st with
        shareReceived := fun j => if j = sender then some share else st.shareReceived j }

/-- Modelled from the spec: coefficient-wise sum of two exponent-form
polynomials, defined when the coefficient lists have equal length
(polynomial.Exponent.add, outside the excerpt). -/
def polyAdd {q : Nat} (f g : List (ZMod q)) : Option (List (ZMod q)) :=
  if f.length = g.length then some (List.zipWith (· + ·) f g) else none

/-- Modelled from the spec: polynomial.Sum, the sum of a nonempty list
of exponent-form polynomials (outside the excerpt); none on the empty
list or on a length mismatch. -/
def polySum {q : Nat} : List (List (ZMod q)) → Option (List (ZMod q))
  | [] => none
  | f :: fs => fs.foldlM polyAdd f

/-- The per-party public entry of a keygen Config: the public ECDSA
share and the Pedersen parameters (N, S, T). -/
structure KeygenPublic (q : Nat) where
  ecdsa : ZMod q
  pedersenN : Nat
  pedersenS : Nat
  pedersenT : Nat
deriving DecidableEq

/-- The secret part of a keygen Config: our id, the updated ECDSA share,
and the Paillier factors P and Q. -/
structure KeygenSecret (ID : Type) (q : Nat) where
  id : ID
  ecdsa : ZMod q
  paillierP : Nat
  paillierQ : Nat

/-- The keygen Config (protocols/cmp/keygen): threshold, per-party
public data, RID, chain key and the secret triple. -/
structure KeygenConfig (ID : Type) (q : Nat) where
  threshold : Nat
  publicData : ID → KeygenPublic q
  rid : List Nat
  chainKey : List Nat
  secret : KeygenSecret ID q

/-- The state of the keygen output round (round_output.go): the round-4
state plus the updated Config built by round4.Finalize. -/
structure OutputRound (ID : Type) (q : Nat) where
  round4 : Round4State ID q
  updatedConfig : KeygenConfig ID q

/-- round4.Finalize (protocols/cmp/keygen/round4.go, lines 86-149): add
all received shares to the previous secret share, sum the VSS
polynomials, build the per-party public data by evaluating the summed
polynomial at each party and adding the previous public share, and
assemble the updated Config.  The outbound Schnorr proof message and the
transcript update, which do not touch the returned state, are elided;
missing shares are read as 0 (in the source the engine guarantees every
share was stored before Finalize runs). -/
def round4Finalize {ID : Type} {q : Nat} (idScalar : ID → ZMod q)
    (st : Round4State ID q) : Except KeygenError (OutputRound ID q) :=
  let updatedSecretECDSA := st.partyIDs.foldl
    (fun acc j => acc + ((st.shareReceived j).getD 0)) st.previousSecretECDSA
  match polySum (st.partyIDs.map st.vssPolynomials) with
  | none => .error KeygenError.polySumFailed
  | some shamirPublicPolynomial =>
    let publicData : ID → KeygenPublic q := fun j =>
      { ecdsa := evalExponent shamirPublicPolynomial (idScalar j) +
          st.previousPublicSharesECDSA j
        pedersenN := st.pedersenN j
        pedersenS := st.pedersenS j
        pedersenT := st.pedersenT j }
    .ok { round4 := st
          updatedConfig :=
            { threshold := st.threshold
              publicData := publicData
              rid := st.rid
              chainKey := st.chainKey
              secret :=
                { id := st.selfID
                  ecdsa := updatedSecretECDSA
                  paillierP := st.paillierP
                  paillierQ := st.paillierQ } } }

/-- The message content of the keygen output round: a Schnorr response
(round_output.go; its Validate checks only this field). -/
structure KeygenOutputMsg (Sch : Type) where
  schnorrResponse : Sch

/-- output.VerifyMessage (protocols/cmp/keygen/round_output.go, lines
19-31): verify the sender's Schnorr response against the sender's new
public ECDSA share in the updated Config and the sender's Schnorr
commitment; the external zksch verifier enters as the function
parameter. -/
def outputVerifyMessage {ID : Type} {q : Nat} {Sch : Type}
    (schVerify : Sch → ZMod q → ZMod q → Bool)
    (st : OutputRound ID q) (sender : ID) (body : KeygenOutputMsg Sch) :
    Except KeygenError Unit :=
  if !(schVerify body.schnorrResponse ((st.updatedConfig.publicData sender).ecdsa)
      (st.round4.schnorrCommitments sender)) then .error KeygenError.roundOutputZKSch
  else .ok ()

/-- output.Finalize (protocols/cmp/keygen/round_output.go, lines 36-41):
return the updated Config as the session result. -/
def outputFinalize {ID : Type} {q : Nat} (st : OutputRound ID q) :
    KeygenConfig ID q :=
  st.updatedConfig

/-! ## Signing setup (protocols/cmp/sign/sign.go) -/

/-- The error returns of StartSign issued before any round-1 state is
built. -/
inductive SignError where
  | emptyMessage
  | invalidSigners
  | invalidConfig
  | helperFailed
deriving DecidableEq

/-- The round-1 state StartSign builds on success
(protocols/cmp/sign/sign.go): the aggregate public key, the scaled
secret share, the per-signer scaled public shares and Paillier/Pedersen
material, and the message being signed. -/
structure SignRound1 (ID : Type) (q : Nat) where
  publicKey : ZMod q
  secretECDSA : ZMod q
  ecdsa : ID → ZMod q
  paillierN : ID → Nat
  pedersenS : ID → Nat
  pedersenT : ID → Nat
  message : List Nat

/-- StartSign (protocols/cmp/sign/sign.go, lines 34-107).  The checks
run in source order: nonempty message, config.CanSign(signers),
config.Validate(), round.NewHelper; the last three lie outside the
excerpt and their outcomes enter as the Boolean parameters canSignOk,
validateOk and helperOk.  The Lagrange coefficients over the signer set,
computed by polynomial.Lagrange (also outside the excerpt), enter as the
function parameter lag.  On success every signer's public ECDSA share is
scaled by its coefficient, the aggregate public key accumulates the
scaled shares in signer order starting from the identity, and the own
secret share is scaled by the own coefficient. -/
def startSign {ID : Type} {q : Nat} (canSignOk validateOk helperOk : Bool)
    (lag : ID → ZMod q) (cfg : KeygenConfig ID q) (signers : List ID)
    (message : List Nat) : Except SignError (SignRound1 ID q) :=
  if message.length = 0 then .error SignError.emptyMessage
  else if !canSignOk then .error SignError.invalidSigners
  else if !validateOk then .error SignError.invalidConfig
  else if !helperOk then .error SignError.helperFailed
  else
    let ecdsaScaled : ID → ZMod q := fun j => lag j * (cfg.publicData j).ecdsa
    let publicKey := signers.foldl (fun acc j => acc + ecdsaScaled j) 0
    .ok { publicKey := publicKey
          secretECDSA := lag cfg.secret.id * cfg.secret.ecdsa
          ecdsa := ecdsaScaled
          paillierN := fun j => (cfg.publicData j).pedersenN
          pedersenS := fun j => (cfg.publicData j).pedersenS
          pedersenT := fun j => (cfg.publicData j).pedersenT
          message := message }

/-! ## List lemmas -/

theorem foldl_add_eq_sum {M α : Type} [AddCommMonoid M] (f : α → M)
    (l : List α) :
    ∀ init : M, l.foldl (fun acc j => acc + f j) init = init + (l.map f).sum := by
  induction l with
  | nil => intro init; simp
  | cons a t ih => intro init; simp [ih, add_assoc]

theorem evalExponent_cons {q : Nat} (a : ZMod q) (t : List (ZMod q)) (x : ZMod q) :
    evalExponent (a :: t) x = a + x * evalExponent t x := rfl

theorem evalExponent_zipWith_add {q : Nat} (x : ZMod q) :
    ∀ f g : List (ZMod q), f.length = g.length →
      evalExponent (List.zipWith (· + ·) f g) x = evalExponent f x + evalExponent g x := by
  intro f
  induction f with
  | nil =>
    intro g h
    have hg : g = [] := List.eq_nil_of_length_eq_zero h.symm
    subst hg
    simp [evalExponent]
  | cons a t ih =>
    intro g h
    cases g with
    | nil => simp at h
    | cons b s =>
      rw [List.zipWith_cons_cons, evalExponent_cons, evalExponent_cons, evalExponent_cons,
        ih s (by simpa using h)]
      ring

theorem polyAdd_eval {q : Nat} (x : ZMod q) (f g fg : List (ZMod q))
    (h : polyAdd f g = some fg) :
    evalExponent fg x = evalExponent f x + evalExponent g x := by
  unfold polyAdd at h
  by_cases hlen : f.length = g.length
  · rw [if_pos hlen] at h
    cases h
    exact evalExponent_zipWith_add x f g hlen
  · rw [if_neg hlen] at h
    cases h

theorem polySum_foldlM_eval {q : Nat} (x : ZMod q) :
    ∀ (fs : List (List (ZMod q))) (f F : List (ZMod q)),
      fs.foldlM polyAdd f = some F →
      evalExponent F x = evalExponent f x + (fs.map (fun g => evalExponent g x)).sum := by
  intro fs
  induction fs with
  | nil =>
    intro f F h
    simp only [List.foldlM_nil, Option.pure_def, Option.some.injEq] at h
    simp [h]
  | cons g t ih =>
    intro f F h
    rw [List.foldlM_cons] at h
    cases hadd : polyAdd f g with
    | none => rw [hadd] at h; simp at h
    | some fg =>
      rw [hadd] at h
      simp only [Option.bind_eq_bind, Option.some_bind] at h
      rw [List.map_cons, List.sum_cons, ih fg F h, polyAdd_eval x f g fg hadd]
      ring

theorem polySum_eval {q : Nat} (x : ZMod q) (l : List (List (ZMod q)))
    (F : List (ZMod q)) (h : polySum l = some F) :
    evalExponent F x = (l.map (fun g => evalExponent g x)).sum := by
  cases l with
  | nil => simp [polySum] at h
  | cons f fs =>
    rw [List.map_cons, List.sum_cons]
    exact polySum_foldlM_eval x fs f F h

/-! ## Concrete sample data for witnesses and counterexamples -/

/-- A tiny concrete round-4 state over ID = Nat and group order q = 11,
with the Paillier key (3, 5). -/
def sampleRound4State : Round4State Nat 11 where
  partyIDs := [1, 2]
  selfID := 1
  threshold := 1
  rid := [0]
  chainKey := [0]
  pedersenN := fun _ => 15
  pedersenS := fun _ => 2
  pedersenT := fun _ => 4
  vssPolynomials := fun _ => [7]
  shareReceived := fun _ => none
  previousSecretECDSA := 0
  previousPublicSharesECDSA := fun _ => 0
  schnorrCommitments := fun _ => 0
  paillierP := 3
  paillierQ := 5

/-- A tiny concrete keygen Config over ID = Nat and q = 11. -/
def sampleConfig : KeygenConfig Nat 11 where
  threshold := 1
  publicData := fun _ => { ecdsa := 7, pedersenN := 15, pedersenS := 2, pedersenT := 4 }
  rid := [0]
  chainKey := [0]
  secret := { id := 1, ecdsa := 7, paillierP := 3, paillierQ := 5 }

/-- A tiny concrete output-round state. -/
def sampleOutputRound : OutputRound Nat 11 where
  round4 := sampleRound4State
  updatedConfig := sampleConfig

/-! ## Theorems for the keygen claims -/

/-- C5 counterexample: a round-4 message situation in which the
(spec-mandated) logstar verification fails is accepted by the code.  The
spec-level round 4 rejects it with the logstar error kind, while the
code's VerifyMessage accepts whenever mod and prm verify: the Keygen4
message carries no logstar proof at all, so there is nothing for the
round to verify. -/
theorem round4_no_logstar_counterexample :
    round4VerifyMessageSpec true true false = .error KeygenError.round4ZKLogStar ∧
    round4VerifyMessage (fun (_ : Unit) (_ : Nat) => true)
      (fun (_ : Unit) (_ : Nat) (_ : Nat) (_ : Nat) => true)
      sampleRound4State 2 ⟨(), (), 1⟩ = .ok () :=
  ⟨rfl, rfl⟩

/-- C5 (amended): in keygen round 4 the receiver verifies the mod proof
on N_j and the prm proof on (N_j, s_j, t_j); a failure of either yields
an error that the engine attributes to the sender j, aborting the
session.  No logstar proof is carried by the Keygen4 message or
verified. -/
theorem round4VerifyMessage_char {ID : Type} {q : Nat} {Mod Prm : Type}
    (modVerify : Mod → Nat → Bool) (prmVerify : Prm → Nat → Nat → Nat → Bool)
    (st : Round4State ID q) (sender : ID) (body : Keygen4 Mod Prm) :
    (modVerify body.mod (st.pedersenN sender) = false →
      attributeError sender (round4VerifyMessage modVerify prmVerify st sender body) =
        .error (sender, KeygenError.round4ZKMod)) ∧
    (modVerify body.mod (st.pedersenN sender) = true →
      prmVerify body.prm (st.pedersenN sender) (st.pedersenS sender)
          (st.pedersenT sender) = false →
      attributeError sender (round4VerifyMessage modVerify prmVerify st sender body) =
        .error (sender, KeygenError.round4ZKPrm)) ∧
    (modVerify body.mod (st.pedersenN sender) = true →
      prmVerify body.prm (st.pedersenN sender) (st.pedersenS sender)
          (st.pedersenT sender) = true →
      round4VerifyMessage modVerify prmVerify st sender body = .ok ()) := by
  refine ⟨?_, ?_, ?_⟩
  · intro h1
    simp [round4VerifyMessage, attributeError, h1]
  · intro h1 h2
    simp [round4VerifyMessage, attributeError, h1, h2]
  · intro h1 h2
    simp [round4VerifyMessage, attributeError, h1, h2]

/-- Witness for C5 (amended): a failing mod proof is attributed to the
sender. -/
theorem round4VerifyMessage_char_witness :
    attributeError 2 (round4VerifyMessage (fun (_ : Unit) (_ : Nat) => false)
        (fun (_ : Unit) (_ : Nat) (_ : Nat) (_ : Nat) => true)
        sampleRound4State 2 ⟨(), (), 1⟩) =
      .error (2, KeygenError.round4ZKMod) :=
  (round4VerifyMessage_char (fun (_ : Unit) (_ : Nat) => false)
    (fun (_ : Unit) (_ : Nat) (_ : Nat) (_ : Nat) => true)
    sampleRound4State 2 ⟨(), (), 1⟩).1 rfl

/-- C6: in round4.StoreMessage, a decryption error is passed through, a
decrypted integer changed by reduction into the scalar field is rejected
with the decrypt-overflow error, a share failing the VSS check
share * G = F_sender(self) is rejected with the VSS error, and only a
share passing both checks is recorded for the sender (every other
party's stored share is untouched); on the error paths no updated state
is produced. -/
theorem round4StoreMessage_char {ID : Type} [DecidableEq ID] {q : Nat} {Mod Prm : Type}
    (idScalar : ID → ZMod q) (st : Round4State ID q) (sender : ID)
    (body : Keygen4 Mod Prm) :
    (∀ e, decPaillier st.paillierP st.paillierQ body.share = .error e →
      round4StoreMessage idScalar st sender body = .error (KeygenError.decFailed e)) ∧
    (∀ m : Int, decPaillier st.paillierP st.paillierQ body.share = .ok m →
      m ≠ (((m : ZMod q)).val : Int) →
      round4StoreMessage idScalar st sender body = .error KeygenError.round4Decrypt) ∧
    (∀ m : Int, decPaillier st.paillierP st.paillierQ body.share = .ok m →
      m = (((m : ZMod q)).val : Int) →
      (m : ZMod q) ≠ evalExponent (st.vssPolynomials sender) (idScalar st.selfID) →
      round4StoreMessage idScalar st sender body = .error KeygenError.round4VSS) ∧
    (∀ m : Int, decPaillier st.paillierP st.paillierQ body.share = .ok m →
      m = (((m : ZMod q)).val : Int) →
      (m : ZMod q) = evalExponent (st.vssPolynomials sender) (idScalar st.selfID) →
      round4StoreMessage idScalar st sender body = .ok { st with
        shareReceived := fun j =>
          if j = sender then some ((m : ZMod q)) else st.shareReceived j }) := by
  refine ⟨?_, ?_, ?_, ?_⟩
  · intro e he
    simp [round4StoreMessage, he]
  · intro m hm hne
    simp [round4StoreMessage, hm, hne]
  · intro m hm heq hne
    unfold round4StoreMessage
    rw [hm]
    simp only [if_neg (not_not_intro heq)]
    simp [hne]
  · intro m hm heq hvss
    unfold round4StoreMessage
    rw [hm]
    simp only [if_neg (not_not_intro heq), if_neg (not_not_intro hvss)]

/-- Witness for C6: the ciphertext 106 decrypts to 7 under the key
(3, 5); 7 survives the reduction into the scalar field of order 11 and
matches the constant VSS polynomial [7], so the share is recorded for
sender 2. -/
theorem round4StoreMessage_char_witness :
    round4StoreMessage (fun j => ((j : Nat) : ZMod 11)) sampleRound4State 2
        (⟨(), (), 106⟩ : Keygen4 Unit Unit) =
      .ok { sampleRound4State with
        shareReceived := fun j =>
          if j = 2 then some (((7 : Int) : ZMod 11)) else sampleRound4State.shareReceived j } :=
  (round4StoreMessage_char (fun j => ((j : Nat) : ZMod 11)) sampleRound4State 2
    ⟨(), (), 106⟩).2.2.2 7 rfl (by decide) (by decide)

/-- C7: round4.Finalize produces the updated Config: its new secret
share is the previous secret share plus the sum of the decrypted shares
received from every committee party, each party's new public share is
the sum of all VSS polynomials evaluated at that party plus the party's
previous public share, and the Config holds the threshold, the per-party
public data (with each party's Pedersen material), the RID, the chain
key and the secret (self id, updated share, Paillier P and Q). -/
theorem round4Finalize_char {ID : Type} {q : Nat} (idScalar : ID → ZMod q)
    (st : Round4State ID q) (sh : ID → ZMod q) (F : List (ZMod q))
    (hsh : ∀ j ∈ st.partyIDs, st.shareReceived j = some (sh j))
    (hF : polySum (st.partyIDs.map st.vssPolynomials) = some F) :
    ∃ out : OutputRound ID q, round4Finalize idScalar st = .ok out ∧
      out.updatedConfig.secret.ecdsa =
        st.previousSecretECDSA + (st.partyIDs.map sh).sum ∧
      (∀ k, (out.updatedConfig.publicData k).ecdsa =
        (st.partyIDs.map (fun j => evalExponent (st.vssPolynomials j) (idScalar k))).sum +
          st.previousPublicSharesECDSA k) ∧
      (∀ k, (out.updatedConfig.publicData k).pedersenN = st.pedersenN k ∧
            (out.updatedConfig.publicData k).pedersenS = st.pedersenS k ∧
            (out.updatedConfig.publicData k).pedersenT = st.pedersenT k) ∧
      out.updatedConfig.threshold = st.threshold ∧
      out.updatedConfig.rid = st.rid ∧
      out.updatedConfig.chainKey = st.chainKey ∧
      out.updatedConfig.secret.id = st.selfID ∧
      out.updatedConfig.secret.paillierP = st.paillierP ∧
      out.updatedConfig.secret.paillierQ = st.paillierQ := by
  unfold round4Finalize
  rw [hF]
  refine ⟨_, rfl, ?_, ?_, fun k => ⟨rfl, rfl, rfl⟩, rfl, rfl, rfl, rfl, rfl, rfl⟩
  · show st.partyIDs.foldl (fun acc j => acc + ((st.shareReceived j).getD 0))
        st.previousSecretECDSA = _
    have hmap : st.partyIDs.map (fun j => (st.shareReceived j).getD 0) =
        st.partyIDs.map sh :=
      List.map_congr_left fun j hj => by rw [hsh j hj]; rfl
    rw [foldl_add_eq_sum (fun j => (st.shareReceived j).getD 0) st.partyIDs, hmap]
  · intro k
    show evalExponent F (idScalar k) + st.previousPublicSharesECDSA k = _
    rw [polySum_eval (idScalar k) _ F hF, List.map_map]
    rfl

/-- Witness for C7 on the sample state with both shares stored. -/
theorem round4Finalize_char_witness :
    ∃ out : OutputRound Nat 11,
      round4Finalize (fun j => ((j : Nat) : ZMod 11))
          { sampleRound4State with shareReceived := fun _ => some 7 } = .ok out ∧
      out.updatedConfig.secret.ecdsa = 0 + ([(7 : ZMod 11), 7]).sum := by
  obtain ⟨out, h1, h2, _⟩ :=
    round4Finalize_char (fun j => ((j : Nat) : ZMod 11))
      { sampleRound4State with shareReceived := fun _ => some 7 }
      (fun _ => 7) [14] (by intro j hj; rfl) rfl
  exact ⟨out, h1, h2⟩

/-- C8: in the keygen output round, the sender's Schnorr response is
verified against the sender's commitment and the sender's new public
share in the updated Config; a failed verification yields an error that
the engine attributes to the sender, and Finalize returns the updated
Config as the session result. -/
theorem outputRound_char {ID : Type} {q : Nat} {Sch : Type}
    (schVerify : Sch → ZMod q → ZMod q → Bool) (st : OutputRound ID q)
    (sender : ID) (body : KeygenOutputMsg Sch) :
    (schVerify body.schnorrResponse ((st.updatedConfig.publicData sender).ecdsa)
        (st.round4.schnorrCommitments sender) = false →
      attributeError sender (outputVerifyMessage schVerify st sender body) =
        .error (sender, KeygenError.roundOutputZKSch)) ∧
    (schVerify body.schnorrResponse ((st.updatedConfig.publicData sender).ecdsa)
        (st.round4.schnorrCommitments sender) = true →
      outputVerifyMessage schVerify st sender body = .ok ()) ∧
    outputFinalize st = st.updatedConfig := by
  refine ⟨?_, ?_, rfl⟩
  · intro h
    simp [outputVerifyMessage, attributeError, h]
  · intro h
    simp [outputVerifyMessage, attributeError, h]

/-- Witness for C8: an accepting Schnorr verification lets the message
through, and Finalize returns the updated Config. -/
theorem outputRound_char_witness :
    outputVerifyMessage (fun (_ : Unit) (_ : ZMod 11) (_ : ZMod 11) => true)
        sampleOutputRound 2 ⟨()⟩ = .ok () ∧
    outputFinalize sampleOutputRound = sampleOutputRound.updatedConfig :=
  ⟨(outputRound_char (fun (_ : Unit) (_ : ZMod 11) (_ : ZMod 11) => true)
      sampleOutputRound 2 ⟨()⟩).2.1 rfl,
   (outputRound_char (fun (_ : Unit) (_ : ZMod 11) (_ : ZMod 11) => true)
      sampleOutputRound 2 ⟨()⟩).2.2⟩

/-! ## Theorems for the signing claims -/

/-- C9: when the message is nonempty and all pre-checks pass, StartSign
builds the round-1 state in which every signer's public ECDSA share is
scaled by its Lagrange coefficient over the signer set, the own secret
share is scaled by the own coefficient, and the aggregate public key is
the sum over the signer set of the scaled public shares. -/
theorem startSign_scaling {ID : Type} {q : Nat} (lag : ID → ZMod q)
    (cfg : KeygenConfig ID q) (signers : List ID) (message : List Nat)
    (hm : message.length ≠ 0) :
    ∃ st : SignRound1 ID q,
      startSign true true true lag cfg signers message = .ok st ∧
      st.publicKey = (signers.map (fun j => lag j * (cfg.publicData j).ecdsa)).sum ∧
      (∀ j, st.ecdsa j = lag j * (cfg.publicData j).ecdsa) ∧
      st.secretECDSA = lag cfg.secret.id * cfg.secret.ecdsa := by
  refine ⟨{ publicKey := signers.foldl
              (fun acc j => acc + (lag j * (cfg.publicData j).ecdsa)) 0
            secretECDSA := lag cfg.secret.id * cfg.secret.ecdsa
            ecdsa := fun j => lag j * (cfg.publicData j).ecdsa
            paillierN := fun j => (cfg.publicData j).pedersenN
            pedersenS := fun j => (cfg.publicData j).pedersenS
            pedersenT := fun j => (cfg.publicData j).pedersenT
            message := message }, ?_, ?_, fun j => rfl, rfl⟩
  · simp [startSign, hm]
  · show signers.foldl (fun acc j => acc + (lag j * (cfg.publicData j).ecdsa)) 0 = _
    rw [foldl_add_eq_sum (fun j => lag j * (cfg.publicData j).ecdsa) signers]
    rw [zero_add]

/-- Witness for C9 on the sample Config with signers 1 and 2. -/
theorem startSign_scaling_witness :
    ∃ st : SignRound1 Nat 11,
      startSign true true true (fun j => ((j : Nat) : ZMod 11)) sampleConfig [1, 2] [1] =
        .ok st ∧
      st.publicKey =
        ([1, 2].map (fun j => ((j : Nat) : ZMod 11) * (sampleConfig.publicData j).ecdsa)).sum ∧
      (∀ j, st.ecdsa j = ((j : Nat) : ZMod 11) * (sampleConfig.publicData j).ecdsa) ∧
      st.secretECDSA =
        ((sampleConfig.secret.id : Nat) : ZMod 11) * sampleConfig.secret.ecdsa :=
  startSign_scaling (fun j => ((j : Nat) : ZMod 11)) sampleConfig [1, 2] [1] (by decide)

/-- C10: StartSign refuses to start a session before building any round
state: an empty message yields an error; with a nonempty message, a
signer set that is not a valid signing subset yields an error; with
those passing, a Config failing validation yields an error — in that
order. -/
theorem startSign_rejects {ID : Type} {q : Nat} (lag : ID → ZMod q)
    (cfg : KeygenConfig ID q) (signers : List ID) (message : List Nat)
    (canSignOk validateOk helperOk : Bool) :
    (message.length = 0 →
      startSign canSignOk validateOk helperOk lag cfg signers message =
        .error SignError.emptyMessage) ∧
    (message.length ≠ 0 → canSignOk = false →
      startSign canSignOk validateOk helperOk lag cfg signers message =
        .error SignError.invalidSigners) ∧
    (message.length ≠ 0 → canSignOk = true → validateOk = false →
      startSign canSignOk validateOk helperOk lag cfg signers message =
        .error SignError.invalidConfig) := by
  refine ⟨?_, ?_, ?_⟩
  · intro h
    simp [startSign, h]
  · intro h hc
    simp [startSign, h, hc]
  · intro h hc hv
    simp [startSign, h, hc, hv]

/-- Witness for C10: the empty message is refused. -/
theorem startSign_rejects_witness :
    startSign true true true (fun j => ((j : Nat) : ZMod 11)) sampleConfig [1, 2]
        ([] : List Nat) = .error SignError.emptyMessage :=
  (startSign_rejects (fun j => ((j : Nat) : ZMod 11)) sampleConfig [1, 2] []
    true true true).1 rfl

end MPS
